import Mathlib

/-!
Verification of the dispatch core of `jbg-api-util` (an RPC dispatch layer with a
caller-side resolver, `src/lib/client.js`, and a server-side request router,
`src/unnamed/part_000`).

The JavaScript code is shallowly embedded:
* JSON-like runtime values become the inductive type `JSValue` (numbers are
  modelled as integers; floating point and `undefined` are out of scope --
  an absent object property is an `Option` `none` at the lookup site).
* JS objects are association lists with unique keys; property assignment is
  `setAssoc` (overwrite in place, append when new).
* Promise settlement becomes `Except`/`CallResult`; a synchronous throw out of
  `call()` and an exception a promise cannot capture are explicit constructors.
* The express/transport collaborators are oracles passed as functions
  (`net : String → Transport` for the HTTP client, request data in `Req`).
Each definition carries a comment naming the source function it embeds.
-/

set_option autoImplicit false

/-- Association-list read, returning the first binding of a key: the model of
reading a property from a JS object (whose keys are unique). -/
def lookupAssoc {α : Type} : List (String × α) → String → Option α
  | [], _ => none
  | kv :: rest, k => if kv.1 = k then some kv.2 else lookupAssoc rest k

/-- JSON-like JavaScript runtime values, as exchanged by the dispatch core.
Numbers are modelled as integers (the core never does arithmetic on them);
`undefined` is not a value: an absent property is `none` at lookup sites. -/
inductive JSValue where
  | null
  | bool (b : Bool)
  | num (n : Int)
  | str (s : String)
  | arr (items : List JSValue)
  | obj (fields : List (String × JSValue))

/-- Property read `v[k]`: `some` when the property is present on an object,
`none` otherwise (JS would yield `undefined`). -/
def JSValue.lookup : JSValue → String → Option JSValue
  | .obj fs, k => lookupAssoc fs k
  | _, _ => none

/-- JS truthiness of a value (NaN does not arise: numbers are integers). -/
def jsTruthy : JSValue → Bool
  | .null => false
  | .bool b => b
  | .num n => !(n == 0)
  | .str s => !(s == "")
  | .arr _ => true
  | .obj _ => true

/-- JS truthiness of a possibly-absent value (`undefined` is falsy). -/
def jsTruthyOpt : Option JSValue → Bool
  | some v => jsTruthy v
  | none => false

/-- `result.hasOwnProperty(k)` restricted to the reserved keys the router
probes (`_raw`, `_redirect`, `data`): member access on `null` is a TypeError
(`.error`), objects answer own-key membership, and primitive boxing never has
these keys as own properties. -/
def hasOwn : JSValue → String → Except Unit Bool
  | .null, _ => .error ()
  | .obj fs, k => .ok (lookupAssoc fs k).isSome
  | _, _ => .ok false

/-- Non-faulting own-key membership, used to state properties of non-null
results. -/
def hasKey : JSValue → String → Bool
  | .obj fs, k => (lookupAssoc fs k).isSome
  | _, _ => false

/-- JS property assignment `fs[k] = v`: overwrite in place when the key
exists, append otherwise (JS objects keep insertion order). -/
def setAssoc {α : Type} (fs : List (String × α)) (k : String) (v : α) : List (String × α) :=
  if (lookupAssoc fs k).isSome then
    fs.map (fun kv => if kv.1 = k then (k, v) else kv)
  else
    fs ++ [(k, v)]

/-- JS `s.split(sep)` on character lists: split at every character satisfying
`p`, keeping empty groups (as JS does). -/
def splitChars (p : Char → Bool) : List Char → List (List Char)
  | [] => [[]]
  | c :: cs =>
      let rest := splitChars p cs
      if p c then [] :: rest
      else (c :: rest.headD []) :: rest.tail

/-- JS `s.split(...)` with a one-character separator class (`'/'`, or the
regex `\s` of a single whitespace character). -/
def jsSplit (s : String) (p : Char → Bool) : List String :=
  (splitChars p s.data).map String.mk

/-- JS `s.indexOf(pre) == 0`. -/
def jsStartsWith (s pre : String) : Bool :=
  pre.data.isPrefixOf s.data

/-- JS `o || d` for a string-or-undefined option (empty string is falsy). -/
def orDefaultStr (o : Option String) (d : String) : String :=
  match o with
  | some s => if s = "" then d else s
  | none => d

/-- An HTTP response produced through the express response sink: either a
JSON body with an HTTP status (`none` when `res.status` was given a
non-numeric/absent code) or a redirect (`response.redirect(target)`). -/
inductive Response where
  | json (status : Option JSValue) (body : JSValue)
  | redirect (target : JSValue)

/-- A response is a conforming wire envelope only when it carries an actual
numeric HTTP status (a redirect delegates the status to express). -/
def Response.conformingEnvelope : Response → Bool
  | .json (some (.num _)) _ => true
  | .json _ _ => false
  | .redirect _ => true

/-- `Server.respondWithError` (src/unnamed/part_000 lines 35-39):
`res.status(e.status).json({error: {code: e.status, message: e.message}})`.
Fields holding `undefined` are dropped from the JSON body, and an absent
`e.status` leaves the response without a numeric status. -/
def optionalField (k : String) (v : Option JSValue) : List (String × JSValue) :=
  match v with
  | some x => [(k, x)]
  | none => []

def respondWithError (e : JSValue) : Response :=
  .json (e.lookup "status")
    (.obj [("error",
      .obj (optionalField "code" (e.lookup "status") ++
            optionalField "message" (e.lookup "message")))])

/-- `Server.respondWithSuccess` (src/unnamed/part_000 lines 41-54). The
branches are probed in source order: `_raw` first, then `_redirect`, then
`data`, else wrap in `{data: result}`; `response.json` answers with HTTP
status 200. Each `hasOwnProperty` probe is a TypeError on `null`. -/
def respondWithSuccess (result : JSValue) : Except Unit Response :=
  match hasOwn result "_raw" with
  | .error e => .error e
  | .ok true => .ok (.json (some (.num 200)) ((result.lookup "_raw").getD .null))
  | .ok false =>
    match hasOwn result "_redirect" with
    | .error e => .error e
    | .ok true => .ok (.redirect ((result.lookup "_redirect").getD .null))
    | .ok false =>
      match hasOwn result "data" with
      | .error e => .error e
      | .ok true => .ok (.json (some (.num 200)) result)
      | .ok false => .ok (.json (some (.num 200)) (.obj [("data", result)]))

/-- The pure view of `respondWithSuccess` on non-null results, used to state
its case analysis. -/
def respondSuccessPure (result : JSValue) : Response :=
  if hasKey result "_raw" then .json (some (.num 200)) ((result.lookup "_raw").getD .null)
  else if hasKey result "_redirect" then .redirect ((result.lookup "_redirect").getD .null)
  else if hasKey result "data" then .json (some (.num 200)) result
  else .json (some (.num 200)) (.obj [("data", result)])

/-- The `while (segments.length > 0)` loop of `Server.processMethod`
(src/unnamed/part_000 lines 109-116), structurally recursive on a fuel
counter: each iteration checks the `/`-joined segments against the registry
and drops the last segment. The loop runs at most `segments.length` times. -/
def resolveKeyAux (isReg : String → Bool) : Nat → List String → Option String
  | 0, _ => none
  | _ + 1, [] => none
  | n + 1, s :: rest =>
      if isReg (String.intercalate "/" (s :: rest)) then
        some (String.intercalate "/" (s :: rest))
      else
        resolveKeyAux isReg n (s :: rest).dropLast

def resolveKey (isReg : String → Bool) (segs : List String) : Option String :=
  resolveKeyAux isReg segs.length segs

/-- The failure object built at src/unnamed/part_000 line 117. -/
def notFoundError : JSValue :=
  .obj [("status", .num 404), ("message", .str "api endpoint not found")]

/-- `Server.processMethod` (src/unnamed/part_000 lines 105-118) up to endpoint
dispatch: `apiUrl` is the capture of the regex `\/api\/([^?]*)` (the sub-path
after the fixed mount prefix, query string stripped), split on `path.sep`
(`"/"` on POSIX); an unresolved path feeds `{status:404, message:"api
endpoint not found"}` to `respondWithError`. `isReg` is the truthiness of
`this.endpoints[checkPath]`. -/
def dispatchPath (isReg : String → Bool) (apiUrl : String) : Except Response String :=
  match resolveKey isReg (jsSplit apiUrl (fun c => c == '/')) with
  | some k => .ok k
  | none => .error (respondWithError notFoundError)

/-- The inbound request data the router reads: the parsed structured body and
query (`body-parser` output, objects with unique keys), the optionally
captured raw body text, and the request headers (`req.header` is looked up
here by the exact names the router uses). -/
structure Req where
  body : List (String × JSValue)
  query : List (String × JSValue)
  rawBody : Option String
  headers : List (String × String)

/-- The `Server` construction options that parameter extraction reads
(src/unnamed/part_000 lines 26, 32). -/
structure ServerConfig where
  includeRequestId : Bool
  headerParams : List String

/-- `Server.extractParams`, step a-b (src/unnamed/part_000 lines 58-61):
start from `req.body` and overwrite with each query entry. -/
def mergeQueryParams (body query : List (String × JSValue)) : List (String × JSValue) :=
  query.foldl (fun ps kv => setAssoc ps kv.1 kv.2) body

/-- `Server.extractParams`, step c (lines 62-64): attach the captured raw
body text under `_body`. -/
def attachRawBody (rawBody : Option String) (params : List (String × JSValue)) :
    List (String × JSValue) :=
  match rawBody with
  | some rb => setAssoc params "_body" (.str rb)
  | none => params

/-- `Server.extractParams`, step d (lines 65-72): when the `Authorization`
header starts with `Bearer ` or `bearer ` (`indexOf(...) == 0`), attach its
second `\s`-separated part under `_auth_token`. (JS would store `undefined`
were there no second part; that cannot happen since the scheme contains a
space, and the model writes `null` there.) -/
def attachAuthToken (headers : List (String × String)) (params : List (String × JSValue)) :
    List (String × JSValue) :=
  match lookupAssoc headers "Authorization" with
  | some a =>
      if jsStartsWith a "Bearer " || jsStartsWith a "bearer " then
        match (jsSplit a (fun c => c.isWhitespace)).get? 1 with
        | some tok => setAssoc params "_auth_token" (.str tok)
        | none => setAssoc params "_auth_token" JSValue.null
      else params
  | none => params

/-- `Server.extractParams`, step e (lines 73-75): when enabled and the
`X-Request-ID` header is a truthy string, attach it under `_request_id`. -/
def attachRequestId (includeRequestId : Bool) (headers : List (String × String))
    (params : List (String × JSValue)) : List (String × JSValue) :=
  if includeRequestId then
    match lookupAssoc headers "X-Request-ID" with
    | some rid => if rid = "" then params else setAssoc params "_request_id" (.str rid)
    | none => params
  else params

/-- `Server.extractParams`, step f (lines 76-78): copy each configured header
name verbatim (JS stores `undefined` for an absent header; modelled as
`null` -- no claim depends on that value). -/
def attachHeaderParams (headerParams : List String) (headers : List (String × String))
    (params : List (String × JSValue)) : List (String × JSValue) :=
  headerParams.foldl
    (fun ps h =>
      setAssoc ps h (match lookupAssoc headers h with
        | some v => JSValue.str v
        | none => JSValue.null))
    params

/-- `Server.extractParams` (src/unnamed/part_000 lines 56-80): the steps
above in source order. -/
def extractParams (cfg : ServerConfig) (req : Req) : List (String × JSValue) :=
  attachHeaderParams cfg.headerParams req.headers
    (attachRequestId cfg.includeRequestId req.headers
      (attachAuthToken req.headers
        (attachRawBody req.rawBody
          (mergeQueryParams req.body req.query))))

/-- The second argument the router passes to a handler method
(src/unnamed/part_000 line 96). -/
structure ReqMeta where
  originalUrl : String
  baseUrl : String

/-- A registered local handler type on the server side: its verb methods,
`(params, meta) → ` settled outcome. A promise resolves (`.ok`) or rejects
(`.error`). -/
structure SCtor where
  methods : List (String × (JSValue → ReqMeta → Except JSValue JSValue))

/-- A constructed handler instance. `instId` records which `new` created it
(JS object identity); the `log` assignment of line 85 carries no behaviour
and is not modelled. -/
structure SInstance where
  ctor : SCtor
  instId : Nat

/-- The only mutable server state: the lazily filled
`this.endpointInstances` cache, plus the identity stamp for the next
construction. -/
structure SrvState where
  endpointInstances : List (String × SInstance)
  nextId : Nat

/-- `Server.getEndpoint` (src/unnamed/part_000 lines 82-88): return the
cached instance, constructing and caching it on first use.
`new this.endpoints[path](...)` with an unregistered path is a TypeError
(`.error`). -/
def getEndpoint (endpoints : String → Option SCtor) (st : SrvState) (p : String) :
    Except Unit (SInstance × SrvState) :=
  match lookupAssoc st.endpointInstances p with
  | some inst => .ok (inst, st)
  | none =>
    match endpoints p with
    | none => .error ()
    | some c =>
      let inst : SInstance := ⟨c, st.nextId⟩
      .ok (inst, ⟨setAssoc st.endpointInstances p inst, st.nextId + 1⟩)

/-- The `TypeError` raised by `result.hasOwnProperty` on a null result: an
`Error` object owns a `message` but no `status`. -/
def typeErrorValue : JSValue :=
  .obj [("message", .str "TypeError")]

/-- `Server.processEndpoint` (src/unnamed/part_000 lines 90-103): get the
(cached) instance, answer 405 when it lacks the verb method, otherwise
invoke `endpoint[method](params, meta)`; a resolution is encoded by
`respondWithSuccess`, and any rejection -- including the TypeError a null
result raises inside the `.then` handler -- lands in the `.catch`, which
responds with the error. `params` stands for the already-extracted
parameters object. -/
def processEndpoint (endpoints : String → Option SCtor) (st : SrvState)
    (p method : String) (params : JSValue) (meta : ReqMeta) :
    Except Unit (Response × SrvState) :=
  match getEndpoint endpoints st p with
  | .error e => .error e
  | .ok (inst, st') =>
    match lookupAssoc inst.ctor.methods method with
    | none =>
        .ok (respondWithError (.obj [("status", .num 405), ("message", .str "method not available")]), st')
    | some m =>
      match m params meta with
      | .ok result =>
        match respondWithSuccess result with
        | .ok resp => .ok (resp, st')
        | .error _ => .ok (respondWithError typeErrorValue, st')
      | .error e => .ok (respondWithError e, st')

/-- A registered local handler on the client side: its verb methods
(`instance[method](params)` -- the client passes params only,
src/lib/client.js line 69). In the model, constructing the handler type
yields its behaviour. -/
structure LocalHandler where
  methods : List (String × (JSValue → Except JSValue JSValue))

/-- An Endpoint Registry entry: a string URL (reached over the network) or a
local handler type; `Client.call` discriminates with `typeof endpoint ==
'string'`. -/
inductive Descriptor where
  | remote (url : String)
  | localH (h : LocalHandler)

/-- The outcome of one HTTP request through `node-rest-client`: the parsed
response body, or a transport error. -/
inductive Transport where
  | success (body : JSValue)
  | failure (err : JSValue)

/-- How one `Client.call` invocation terminates, seen by the caller. -/
inductive CallResult where
  /-- The returned promise settled: resolved value or rejection value. -/
  | settled (o : Except JSValue JSValue)
  /-- The returned promise rejected with a runtime TypeError raised inside
  the executor (e.g. invoking a missing verb method). -/
  | rejectedFault
  /-- An exception escaped promise control (e.g. a TypeError inside the
  transport callback): the promise never settles. -/
  | unsettledFault
  /-- `call()` itself threw synchronously; no promise was returned. -/
  | syncFault

/-- The caller-supplied call-options object
(`{endpoint, method?, params, 'Content-Type'?, parser?}`). -/
structure CallOptions where
  endpoint : String
  method : Option String
  params : JSValue
  contentType : Option JSValue
  parser : Option (JSValue → JSValue)

/-- The request options handed to the transport (the parts the model
tracks). -/
structure ClientOptions where
  contentTypeHeader : JSValue
  method : String

/-- `Client.loadClientOptions` (src/lib/client.js lines 12-23), including its
mutation of the caller's object: a truthy `Content-Type` is copied into the
headers and deleted from `callOptions`; otherwise the header defaults to
`application/json`; `callOptions.parser` is defaulted to the identity.
`loadRequestMethod` (lines 25-40) contributes the verb, defaulted to `get`.
Returns (transport options, mutated call options). -/
def loadClientOptions (callOptions : CallOptions) : ClientOptions × CallOptions :=
  let ct :=
    if jsTruthyOpt callOptions.contentType then (callOptions.contentType).getD .null
    else JSValue.str "application/json"
  let callOptions1 : CallOptions :=
    { callOptions with
        contentType := if jsTruthyOpt callOptions.contentType then none else callOptions.contentType,
        parser := some (callOptions.parser.getD (fun d => d)) }
  (⟨ct, orDefaultStr callOptions.method "get"⟩, callOptions1)

/-- The verbs `loadRequestMethod` knows (src/lib/client.js lines 29-36); any
other verb hits the `default:` branch and rejects `{status:405, message:
"method not supported"}`, and the first settlement of a promise wins. -/
def supportedVerbs : List String := ["get", "delete", "put", "post"]

/-- The response callback of `Client.callRemote` (src/lib/client.js line 51):
`let returnToParser = data.data ? data.data : data` -- a truthiness test on
the `data` property; member access on a `null` body is a TypeError. -/
def remoteReturn (data : JSValue) : Except Unit JSValue :=
  match data with
  | .null => .error ()
  | _ => .ok (if jsTruthyOpt (data.lookup "data") then (data.lookup "data").getD .null else data)

/-- `Client.callRemote` (src/lib/client.js lines 42-59). The network is the
oracle `net`; `url` is the registered descriptor string. On transport
success the unwrapped body goes through the (defaulted) parser; on transport
error the promise rejects `{status:500, message: err}`; an unsupported verb
rejects `{status:405, message:"method not supported"}` before any request
resolution can win. Returns the call result and the mutated caller
options. -/
def callRemote (net : String → Transport) (url : String) (opts : CallOptions) :
    CallResult × CallOptions :=
  let co := loadClientOptions opts
  let result :=
    if supportedVerbs.contains co.1.method then
      match net url with
      | .success body =>
        match remoteReturn body with
        | .ok raw => CallResult.settled (.ok ((co.2.parser.getD (fun d => d)) raw))
        | .error _ => CallResult.unsettledFault
      | .failure err =>
        CallResult.settled (.error (.obj [("status", .num 500), ("message", err)]))
    else
      CallResult.settled (.error (.obj [("status", .num 405), ("message", .str "method not supported")]))
  (result, co.2)

/-- The promise body of `Client.callLocal` (src/lib/client.js lines 68-74):
invoke `instance[method](params)`, feed a resolution through the parser,
pass a rejection through; a missing verb method is `undefined(...)`, a
TypeError inside the executor, which rejects the promise. `opts` is the
already-defaulted options object. -/
def runLocal (inst : LocalHandler) (opts : CallOptions) : CallResult :=
  match lookupAssoc inst.methods (opts.method.getD "get") with
  | none => CallResult.rejectedFault
  | some m =>
    match m opts.params with
    | .ok r => CallResult.settled (.ok ((opts.parser.getD (fun d => d)) r))
    | .error e => CallResult.settled (.error e)

/-- `Client.callLocal` (src/lib/client.js lines 61-75): default `method` and
`parser` on the caller's options, then reuse or construct the cached
instance. `ctor?` is `this.endpoints[callOptions.endpoint]` -- `none` for an
unregistered key, in which case `new undefined(...)` throws synchronously
out of `call()`. Returns (result, updated cache, mutated options). -/
def callLocal (ctor? : Option LocalHandler) (cache : List (String × LocalHandler))
    (opts : CallOptions) :
    CallResult × List (String × LocalHandler) × CallOptions :=
  let opts2 : CallOptions :=
    { opts with
        method := some (orDefaultStr opts.method "get"),
        parser := some (opts.parser.getD (fun d => d)) }
  let rc : CallResult × List (String × LocalHandler) :=
    match lookupAssoc cache opts.endpoint with
    | some inst => (runLocal inst opts2, cache)
    | none =>
      match ctor? with
      | none => (CallResult.syncFault, cache)
      | some ctor => (runLocal ctor opts2, setAssoc cache opts.endpoint ctor)
  (rc.1, rc.2, opts2)

/-- `Client.call` (src/lib/client.js lines 77-86): a string descriptor goes
remote, anything else -- including `undefined` for an unregistered key --
goes down the local path. Returns (result, updated instance cache, the
caller's options object after the call). -/
def Client.call (endpoints : String → Option Descriptor) (net : String → Transport)
    (cache : List (String × LocalHandler)) (opts : CallOptions) :
    CallResult × List (String × LocalHandler) × CallOptions :=
  match endpoints opts.endpoint with
  | some (.remote url) =>
      let r := callRemote net url opts
      (r.1, cache, r.2)
  | some (.localH h) => callLocal (some h) cache opts
  | none => callLocal none cache opts

/-! Concrete fixtures used by witnesses and counterexamples. -/

/-- A server-side handler type whose `get` resolves with `1`. -/
def c8Ctor : SCtor := ⟨[("get", fun _ _ => Except.ok (JSValue.num 1))]⟩

/-- A registry holding `c8Ctor` under the key `e`. -/
def c8Endpoints : String → Option SCtor := fun s => if s = "e" then some c8Ctor else none

/-- A server-side handler type whose `get` resolves with `null`. -/
def c10Ctor : SCtor := ⟨[("get", fun _ _ => Except.ok JSValue.null)]⟩

/-- A registry answering `c10Ctor` for every key. -/
def c10Endpoints : String → Option SCtor := fun _ => some c10Ctor

/-- An empty client registry. -/
def c3Endpoints : String → Option Descriptor := fun _ => none

/-- A transport that answers a `null` body (never reached). -/
def c3Net : String → Transport := fun _ => .success JSValue.null

/-- A call request for an unregistered endpoint key. -/
def c3Opts : CallOptions := ⟨"missing", none, JSValue.null, none, none⟩

/-- A transport whose response body is `{data: 0}` (a falsy `data` value). -/
def c4Net : String → Transport := fun _ => .success (.obj [("data", JSValue.num 0)])

/-- A default call request for endpoint `e`. -/
def c4Opts : CallOptions := ⟨"e", none, JSValue.null, none, none⟩

/-- A transport whose response body is `{data: 7}`. -/
def c4WNet : String → Transport := fun _ => .success (.obj [("data", JSValue.num 7)])

/-- A client-side handler whose `get` resolves with `0`. -/
def c5Handler : LocalHandler := ⟨[("get", fun _ => Except.ok (JSValue.num 0))]⟩

/-- A registry mapping every key to the remote URL `u`. -/
def c5RemoteReg : String → Option Descriptor := fun _ => some (.remote "u")

/-- A registry mapping every key to the local handler `c5Handler`. -/
def c5LocalReg : String → Option Descriptor := fun _ => some (.localH c5Handler)

/-- A transport whose response body is `{data: 0}`. -/
def c5Net : String → Transport := fun _ => .success (.obj [("data", JSValue.num 0)])

/-- A default call request for endpoint `e`. -/
def c5Opts : CallOptions := ⟨"e", none, JSValue.null, none, none⟩

/-- A client-side handler whose `get` resolves with `3` (a truthy value). -/
def c5WHandler : LocalHandler := ⟨[("get", fun _ => Except.ok (JSValue.num 3))]⟩

/-- A registry mapping every key to the local handler `c5WHandler`. -/
def c5WLocalReg : String → Option Descriptor := fun _ => some (.localH c5WHandler)

/-- A transport whose response body is `{data: 3}`. -/
def c5WNet : String → Transport := fun _ => .success (.obj [("data", JSValue.num 3)])

/-- A request whose `Authorization` header uses the `BEARER` scheme casing. -/
def c7Req : Req := ⟨[], [], none, [("Authorization", "BEARER tok")]⟩

/-- A server configuration with request-id propagation off and no extra
header params. -/
def c7Cfg : ServerConfig := ⟨false, []⟩

/-- A request whose `Authorization` header uses the `Bearer` scheme casing. -/
def c7WReq : Req := ⟨[], [], none, [("Authorization", "Bearer tok")]⟩

/-- A registry mapping every key to the remote URL `u`. -/
def c9Endpoints : String → Option Descriptor := fun _ => some (.remote "u")

/-- A transport that answers a `null` body. -/
def c9Net : String → Transport := fun _ => .success JSValue.null

/-- A call request carrying a truthy `Content-Type`. -/
def c9Opts : CallOptions := ⟨"e", none, JSValue.null, some (.str "text/plain"), none⟩


theorem lookupAssoc_map_set {α : Type} (fs : List (String × α)) (k : String) (v : α) :
    lookupAssoc (fs.map (fun kv => if kv.1 = k then (k, v) else kv)) k =
      if (lookupAssoc fs k).isSome then some v else none := by
  induction fs with
  | nil => simp [lookupAssoc]
  | cons kv rest ih =>
    by_cases hk : kv.1 = k
    · simp [lookupAssoc, hk]
    · simp [lookupAssoc, hk, ih]

theorem lookupAssoc_map_set_ne {α : Type} (fs : List (String × α)) (k k' : String) (v : α)
    (h : k' ≠ k) :
    lookupAssoc (fs.map (fun kv => if kv.1 = k then (k, v) else kv)) k' =
      lookupAssoc fs k' := by
  induction fs with
  | nil => simp [lookupAssoc]
  | cons kv rest ih =>
    by_cases hk : kv.1 = k
    · have h2 : k ≠ k' := fun he => h he.symm
      have h3 : kv.1 ≠ k' := by rw [hk]; exact h2
      simp [lookupAssoc, hk, h2, h3, ih]
    · by_cases hk' : kv.1 = k'
      · simp [lookupAssoc, hk, hk', h]
      · simp [lookupAssoc, hk, hk', ih]

theorem lookupAssoc_append_single_ne {α : Type} (fs : List (String × α)) (k k' : String)
    (v : α) (h : k' ≠ k) :
    lookupAssoc (fs ++ [(k, v)]) k' = lookupAssoc fs k' := by
  induction fs with
  | nil =>
    have : k ≠ k' := fun he => h he.symm
    simp [lookupAssoc, this]
  | cons kv rest ih =>
    by_cases hk' : kv.1 = k'
    · simp [lookupAssoc, hk']
    · simp [lookupAssoc, hk', ih]

theorem lookupAssoc_append_single_self {α : Type} (fs : List (String × α)) (k : String)
    (v : α) (h : lookupAssoc fs k = none) :
    lookupAssoc (fs ++ [(k, v)]) k = some v := by
  induction fs with
  | nil => simp [lookupAssoc]
  | cons kv rest ih =>
    by_cases hk : kv.1 = k
    · simp [lookupAssoc, hk] at h
    · simp only [lookupAssoc, hk, if_false] at h
      simp [lookupAssoc, hk, ih h]

theorem lookupAssoc_setAssoc_self {α : Type} (fs : List (String × α)) (k : String) (v : α) :
    lookupAssoc (setAssoc fs k v) k = some v := by
  unfold setAssoc
  by_cases h : (lookupAssoc fs k).isSome
  · rw [if_pos h, lookupAssoc_map_set, if_pos h]
  · rw [if_neg h]
    exact lookupAssoc_append_single_self fs k v (Option.not_isSome_iff_eq_none.mp h)

theorem lookupAssoc_setAssoc_ne {α : Type} (fs : List (String × α)) (k k' : String) (v : α)
    (h : k' ≠ k) :
    lookupAssoc (setAssoc fs k v) k' = lookupAssoc fs k' := by
  unfold setAssoc
  split
  · exact lookupAssoc_map_set_ne fs k k' v h
  · exact lookupAssoc_append_single_ne fs k k' v h

theorem lookupAssoc_foldl_set {α : Type} (kvs : List (String × α)) (ps : List (String × α))
    (k : String) (hk : k ∉ kvs.map Prod.fst) :
    lookupAssoc (kvs.foldl (fun ps kv => setAssoc ps kv.1 kv.2) ps) k = lookupAssoc ps k := by
  induction kvs generalizing ps with
  | nil => rfl
  | cons kv rest ih =>
    rw [List.map_cons] at hk
    have h1 : k ≠ kv.1 := fun he => hk (by simp [he])
    have h2 : k ∉ rest.map Prod.fst := fun hm => hk (by simp [hm])
    rw [List.foldl_cons, ih _ h2, lookupAssoc_setAssoc_ne _ _ _ _ h1]

theorem lookupAssoc_merge {α : Type} (body query : List (String × α)) (k : String)
    (hq : (query.map Prod.fst).Nodup) :
    lookupAssoc (query.foldl (fun ps kv => setAssoc ps kv.1 kv.2) body) k =
      ((lookupAssoc query k).orElse (fun _ => lookupAssoc body k)) := by
  induction query generalizing body with
  | nil => simp [lookupAssoc]
  | cons kv rest ih =>
    rw [List.map_cons, List.nodup_cons] at hq
    by_cases hk : kv.1 = k
    · subst hk
      rw [List.foldl_cons, lookupAssoc_foldl_set _ _ _ hq.1, lookupAssoc_setAssoc_self]
      simp [lookupAssoc]
    · rw [List.foldl_cons, ih _ hq.2, lookupAssoc_setAssoc_ne _ _ _ _ (fun he => hk he.symm)]
      simp [lookupAssoc, hk]

theorem hasOwn_of_ne_null (v : JSValue) (h : v ≠ JSValue.null) (k : String) :
    hasOwn v k = .ok (hasKey v k) := by
  cases v with
  | null => exact absurd rfl h
  | bool b => rfl
  | num n => rfl
  | str s => rfl
  | arr l => rfl
  | obj fs => rfl

theorem respondWithSuccess_of_ne_null (v : JSValue) (h : v ≠ JSValue.null) :
    respondWithSuccess v = .ok (respondSuccessPure v) := by
  unfold respondWithSuccess respondSuccessPure
  rw [hasOwn_of_ne_null v h "_raw", hasOwn_of_ne_null v h "_redirect",
    hasOwn_of_ne_null v h "data"]
  cases h1 : hasKey v "_raw" <;> cases h2 : hasKey v "_redirect" <;>
    cases h3 : hasKey v "data" <;> simp

theorem conforming_respondSuccessPure (v : JSValue) :
    (respondSuccessPure v).conformingEnvelope = true := by
  unfold respondSuccessPure
  by_cases h1 : hasKey v "_raw" = true
  · simp [h1, Response.conformingEnvelope]
  · by_cases h2 : hasKey v "_redirect" = true
    · simp [h1, h2, Response.conformingEnvelope]
    · by_cases h3 : hasKey v "data" = true
      · simp [h1, h2, h3, Response.conformingEnvelope]
      · simp [h1, h2, h3, Response.conformingEnvelope]

theorem splitChars_no_sep (p : Char → Bool) (cs : List Char)
    (h : ∀ c ∈ cs, p c = false) :
    splitChars p cs = [cs] := by
  induction cs with
  | nil => rfl
  | cons c cs ih =>
    have hc : p c = false := h c (List.mem_cons_self c cs)
    have ih' := ih (fun d hd => h d (List.mem_cons_of_mem c hd))
    simp [splitChars, hc, ih']

theorem splitChars_ws_append (pre cs : List Char)
    (hpre : ∀ c ∈ pre, c.isWhitespace = false)
    (hcs : ∀ c ∈ cs, c.isWhitespace = false) :
    splitChars (fun c => c.isWhitespace) (pre ++ ' ' :: cs) = [pre, cs] := by
  induction pre with
  | nil =>
    have hsp : (' ').isWhitespace = true := rfl
    simp [splitChars, hsp, splitChars_no_sep _ cs hcs]
  | cons c pre ih =>
    have hc : c.isWhitespace = false := hpre c (List.mem_cons_self _ _)
    have ih' := ih (fun d hd => hpre d (List.mem_cons_of_mem c hd))
    simp [splitChars, hc, ih']

theorem isPrefixOf_append_self (l t : List Char) : l.isPrefixOf (l ++ t) = true := by
  induction l with
  | nil => simp
  | cons c cs ih => simp [List.cons_append, List.isPrefixOf, ih]

theorem jsStartsWith_append (pre t : String) : jsStartsWith (pre ++ t) pre = true := by
  unfold jsStartsWith
  rw [String.data_append]
  exact isPrefixOf_append_self pre.data t.data

theorem resolveKeyAux_some (isReg : String → Bool) :
    ∀ (n : Nat) (segs : List String), segs.length ≤ n → ∀ k,
      resolveKeyAux isReg n segs = some k →
      ∃ m, 0 < m ∧ m ≤ segs.length ∧ k = String.intercalate "/" (segs.take m) ∧
        isReg k = true ∧
        ∀ j, m < j → j ≤ segs.length →
          isReg (String.intercalate "/" (segs.take j)) = false := by
  intro n
  induction n with
  | zero =>
    intro segs _ k hk
    simp [resolveKeyAux] at hk
  | succ n ih =>
    intro segs hlen k hk
    match segs with
    | [] => simp [resolveKeyAux] at hk
    | s :: rest =>
      rw [resolveKeyAux] at hk
      split at hk
      · rename_i hreg
        injection hk with hkeq
        subst hkeq
        refine ⟨(s :: rest).length, by simp, le_refl _, ?_, hreg, ?_⟩
        · rw [List.take_length]
        · intro j hj1 hj2
          omega
      · rename_i hreg
        have hregf : isReg (String.intercalate "/" (s :: rest)) = false :=
          Bool.eq_false_iff.mpr hreg
        have hdl : (s :: rest).dropLast.length = rest.length := by
          simp [List.length_dropLast]
        have hlen' : (s :: rest).dropLast.length ≤ n := by
          rw [hdl]
          have : rest.length + 1 ≤ n + 1 := by simpa using hlen
          omega
        obtain ⟨m, hm0, hmle, hkeq, hkreg, hmax⟩ := ih _ hlen' k hk
        rw [hdl] at hmle
        have htake : ∀ j, j ≤ rest.length → (s :: rest).dropLast.take j = (s :: rest).take j := by
          intro j hj
          rw [List.dropLast_eq_take, List.take_take]
          congr 1
          have : (s :: rest).length - 1 = rest.length := by simp
          rw [this]
          omega
        refine ⟨m, hm0, by simp; omega, ?_, hkreg, ?_⟩
        · rw [← htake m hmle]; exact hkeq
        · intro j hj1 hj2
          have hj2' : j ≤ rest.length + 1 := by simpa using hj2
          rcases Nat.lt_or_ge j (rest.length + 1) with hj | hj
          · have hj' : j ≤ rest.length := by omega
            rw [← htake j hj']
            exact hmax j hj1 (by rw [hdl]; exact hj')
          · have hj' : j = rest.length + 1 := by omega
            subst hj'
            have hfull : (s :: rest).take (rest.length + 1) = s :: rest := by
              have hl : (s :: rest).length = rest.length + 1 := by simp
              rw [← hl, List.take_length]
            rw [hfull]
            exact hregf

theorem resolveKeyAux_none (isReg : String → Bool) :
    ∀ (n : Nat) (segs : List String), segs.length ≤ n →
      resolveKeyAux isReg n segs = none →
      ∀ j, 0 < j → j ≤ segs.length →
        isReg (String.intercalate "/" (segs.take j)) = false := by
  intro n
  induction n with
  | zero =>
    intro segs hlen _ j hj1 hj2
    have : segs.length = 0 := Nat.le_zero.mp hlen
    omega
  | succ n ih =>
    intro segs hlen hk j hj1 hj2
    match segs with
    | [] => simp at hj2; omega
    | s :: rest =>
      rw [resolveKeyAux] at hk
      split at hk
      · exact absurd hk (by simp)
      · rename_i hreg
        have hregf : isReg (String.intercalate "/" (s :: rest)) = false :=
          Bool.eq_false_iff.mpr hreg
        have hdl : (s :: rest).dropLast.length = rest.length := by
          simp [List.length_dropLast]
        have hlen' : (s :: rest).dropLast.length ≤ n := by
          rw [hdl]
          have : rest.length + 1 ≤ n + 1 := by simpa using hlen
          omega
        have htake : ∀ i, i ≤ rest.length → (s :: rest).dropLast.take i = (s :: rest).take i := by
          intro i hi
          rw [List.dropLast_eq_take, List.take_take]
          congr 1
          have : (s :: rest).length - 1 = rest.length := by simp
          rw [this]
          omega
        have hj2' : j ≤ rest.length + 1 := by simpa using hj2
        rcases Nat.lt_or_ge j (rest.length + 1) with hj | hj
        · have hj' : j ≤ rest.length := by omega
          rw [← htake j hj']
          exact ih _ hlen' hk j hj1 (by rw [hdl]; exact hj')
        · have hj' : j = rest.length + 1 := by omega
          subst hj'
          have hfull : (s :: rest).take (rest.length + 1) = s :: rest := by
            have hl : (s :: rest).length = rest.length + 1 := by simp
            rw [← hl, List.take_length]
          rw [hfull]
          exact hregf

theorem lookupAssoc_attachRawBody_ne (rawBody : Option String)
    (ps : List (String × JSValue)) (k : String) (h : k ≠ "_body") :
    lookupAssoc (attachRawBody rawBody ps) k = lookupAssoc ps k := by
  cases rawBody with
  | none => rfl
  | some rb => exact lookupAssoc_setAssoc_ne _ _ _ _ h

theorem lookupAssoc_attachAuthToken_ne (headers : List (String × String))
    (ps : List (String × JSValue)) (k : String) (h : k ≠ "_auth_token") :
    lookupAssoc (attachAuthToken headers ps) k = lookupAssoc ps k := by
  unfold attachAuthToken
  split
  · split
    · split
      · exact lookupAssoc_setAssoc_ne _ _ _ _ h
      · exact lookupAssoc_setAssoc_ne _ _ _ _ h
    · rfl
  · rfl

theorem lookupAssoc_attachRequestId_ne (b : Bool) (headers : List (String × String))
    (ps : List (String × JSValue)) (k : String) (h : k ≠ "_request_id") :
    lookupAssoc (attachRequestId b headers ps) k = lookupAssoc ps k := by
  unfold attachRequestId
  split
  · split
    · split
      · rfl
      · exact lookupAssoc_setAssoc_ne _ _ _ _ h
    · rfl
  · rfl

theorem lookupAssoc_attachHeaderParams_ne (hp : List String)
    (headers : List (String × String)) (ps : List (String × JSValue)) (k : String)
    (h : k ∉ hp) :
    lookupAssoc (attachHeaderParams hp headers ps) k = lookupAssoc ps k := by
  unfold attachHeaderParams
  induction hp generalizing ps with
  | nil => rfl
  | cons hh rest ih =>
    have h1 : k ≠ hh := fun he => h (he ▸ List.mem_cons_self _ _)
    have h2 : k ∉ rest := fun hm => h (List.mem_cons_of_mem _ hm)
    rw [List.foldl_cons, ih _ h2, lookupAssoc_setAssoc_ne _ _ _ _ h1]

theorem jsSplit_append_sp (preChars : List Char) (t : String)
    (hpre : ∀ c ∈ preChars, c.isWhitespace = false)
    (ht : ∀ c ∈ t.data, c.isWhitespace = false)
    (s : String) (hs : s.data = preChars ++ ' ' :: t.data) :
    (jsSplit s (fun c => c.isWhitespace)).get? 1 = some t := by
  unfold jsSplit
  rw [hs, splitChars_ws_append _ _ hpre ht]
  rfl

theorem lookupAssoc_attachAuthToken_bearer (headers : List (String × String))
    (ps : List (String × JSValue)) (t : String)
    (ha : lookupAssoc headers "Authorization" = some ("Bearer " ++ t) ∨
          lookupAssoc headers "Authorization" = some ("bearer " ++ t))
    (ht : ∀ c ∈ t.data, c.isWhitespace = false) :
    lookupAssoc (attachAuthToken headers ps) "_auth_token" = some (.str t) := by
  unfold attachAuthToken
  rcases ha with ha | ha
  · have h1 : jsStartsWith ("Bearer " ++ t) "Bearer " = true := jsStartsWith_append _ _
    have hsplit : (jsSplit ("Bearer " ++ t) (fun c => c.isWhitespace)).get? 1 = some t := by
      refine jsSplit_append_sp ['B', 'e', 'a', 'r', 'e', 'r'] t (by decide) ht _ ?_
      rw [String.data_append]
      rfl
    simp only [ha, h1, Bool.true_or, if_true, hsplit]
    exact lookupAssoc_setAssoc_self _ _ _
  · have h1 : jsStartsWith ("bearer " ++ t) "bearer " = true := jsStartsWith_append _ _
    have hsplit : (jsSplit ("bearer " ++ t) (fun c => c.isWhitespace)).get? 1 = some t := by
      refine jsSplit_append_sp ['b', 'e', 'a', 'r', 'e', 'r'] t (by decide) ht _ ?_
      rw [String.data_append]
      rfl
    simp only [ha, h1, Bool.or_true, if_true, hsplit]
    exact lookupAssoc_setAssoc_self _ _ _

/-- Claim C1 counterexample: a success result carrying both `_redirect` and
`_raw` is answered with the `_raw` body (status 200), not with a redirect --
the source checks `_raw` before `_redirect`, contradicting the claimed
order. -/
theorem C1_counterexample :
    respondWithSuccess (.obj [("_raw", .str "R"), ("_redirect", .str "/go")]) =
      .ok (.json (some (.num 200)) (.str "R")) ∧
    respondWithSuccess (.obj [("_raw", .str "R"), ("_redirect", .str "/go")]) ≠
      .ok (.redirect (.str "/go")) := by
  refine ⟨rfl, fun h => ?_⟩
  exact Response.noConfusion (Except.ok.inj h)

/-- Claim C1 (amended): for every non-null success result the router's
encoding follows the source's case order -- `_raw` first (even when
`_redirect` or `data` is also present), then `_redirect` (an HTTP redirect
with no body encoding), then a present `data` key keeps the result verbatim,
otherwise the body is `{data: result}`; HTTP status is 200 in every
non-redirect success case. -/
theorem C1_success_encoding (result : JSValue) (hnn : result ≠ JSValue.null) :
    (hasKey result "_raw" = true →
      respondWithSuccess result =
        .ok (.json (some (.num 200)) ((result.lookup "_raw").getD .null))) ∧
    (hasKey result "_raw" = false → hasKey result "_redirect" = true →
      respondWithSuccess result =
        .ok (.redirect ((result.lookup "_redirect").getD .null))) ∧
    (hasKey result "_raw" = false → hasKey result "_redirect" = false →
      hasKey result "data" = true →
      respondWithSuccess result = .ok (.json (some (.num 200)) result)) ∧
    (hasKey result "_raw" = false → hasKey result "_redirect" = false →
      hasKey result "data" = false →
      respondWithSuccess result =
        .ok (.json (some (.num 200)) (.obj [("data", result)]))) := by
  have he := respondWithSuccess_of_ne_null result hnn
  refine ⟨fun h1 => ?_, fun h1 h2 => ?_, fun h1 h2 h3 => ?_, fun h1 h2 h3 => ?_⟩ <;>
    rw [he] <;> unfold respondSuccessPure
  · rw [if_pos h1]
  · rw [if_neg (by simp [h1]), if_pos h2]
  · rw [if_neg (by simp [h1]), if_neg (by simp [h2]), if_pos h3]
  · rw [if_neg (by simp [h1]), if_neg (by simp [h2]), if_neg (by simp [h3])]

/-- Claim C1 witness: the amended case analysis at the concrete wrapped
result `{data: 5}`. -/
theorem C1_witness :
    respondWithSuccess (.obj [("data", .num 5)]) =
      .ok (.json (some (.num 200)) (.obj [("data", .num 5)])) :=
  (C1_success_encoding (.obj [("data", .num 5)]) (fun h => JSValue.noConfusion h)).2.2.1
    rfl rfl rfl

/-- Claim C2: the router resolves an endpoint key by longest-prefix match over
the `/`-separated segments of the sub-path after the mount prefix -- a
returned key is the `/`-join of a maximal registered prefix of the segments,
an unresolvable path yields the `{status:404, message:"api endpoint not
found"}` error response, and with keys `a` and `a/b` registered the path
`a/b/c` resolves to `a/b`. -/
theorem C2_path_resolution :
    (∀ (isReg : String → Bool) (apiUrl k : String),
       dispatchPath isReg apiUrl = .ok k →
       ∃ m, 0 < m ∧ m ≤ (jsSplit apiUrl (fun c => c == '/')).length ∧
         k = String.intercalate "/" ((jsSplit apiUrl (fun c => c == '/')).take m) ∧
         isReg k = true ∧
         ∀ j, m < j → j ≤ (jsSplit apiUrl (fun c => c == '/')).length →
           isReg (String.intercalate "/" ((jsSplit apiUrl (fun c => c == '/')).take j)) = false) ∧
    (∀ (isReg : String → Bool) (apiUrl : String),
       (∀ j, 0 < j → j ≤ (jsSplit apiUrl (fun c => c == '/')).length →
          isReg (String.intercalate "/" ((jsSplit apiUrl (fun c => c == '/')).take j)) = false) →
       dispatchPath isReg apiUrl = .error (respondWithError notFoundError)) ∧
    dispatchPath (fun s => s == "a" || s == "a/b") "a/b/c" = .ok "a/b" := by
  refine ⟨?_, ?_, ?_⟩
  · intro isReg apiUrl k h
    unfold dispatchPath at h
    cases hres : resolveKey isReg (jsSplit apiUrl (fun c => c == '/')) with
    | none => rw [hres] at h; exact Except.noConfusion h
    | some k' =>
      rw [hres] at h
      injection h with h'
      subst h'
      exact resolveKeyAux_some isReg _ _ (le_refl _) k' hres
  · intro isReg apiUrl hall
    unfold dispatchPath
    cases hres : resolveKey isReg (jsSplit apiUrl (fun c => c == '/')) with
    | none => rfl
    | some k =>
      exfalso
      obtain ⟨m, hm0, hmle, hkeq, hkreg, _⟩ :=
        resolveKeyAux_some isReg _ _ (le_refl _) k hres
      rw [hkeq] at hkreg
      rw [hall m hm0 hmle] at hkreg
      exact Bool.noConfusion hkreg
  · rfl

/-- Claim C2 witness: the longest-prefix characterization instantiated at the
registry `{a, a/b}` and path `a/b/c`, resolved to `a/b`. -/
theorem C2_witness :
    ∃ m, 0 < m ∧ m ≤ (jsSplit "a/b/c" (fun c => c == '/')).length ∧
      "a/b" = String.intercalate "/" ((jsSplit "a/b/c" (fun c => c == '/')).take m) ∧
      (fun s => s == "a" || s == "a/b") "a/b" = true ∧
      ∀ j, m < j → j ≤ (jsSplit "a/b/c" (fun c => c == '/')).length →
        (fun s => s == "a" || s == "a/b")
          (String.intercalate "/" ((jsSplit "a/b/c" (fun c => c == '/')).take j)) = false :=
  C2_path_resolution.1 (fun s => s == "a" || s == "a/b") "a/b/c" "a/b" rfl

/-- Claim C6: extracted params are one merged object with the parsed body as
the base and query parameters merged on top (query overwrites body on key
collision; the later reserved-key steps touch only their own keys); in
particular a JSON body `{"x":1}` with query string `?x=2` yields `x = 2`. -/
theorem C6_param_precedence :
    (∀ (cfg : ServerConfig) (req : Req) (k : String),
       (req.query.map Prod.fst).Nodup →
       k ≠ "_body" → k ≠ "_auth_token" → k ≠ "_request_id" →
       k ∉ cfg.headerParams →
       lookupAssoc (extractParams cfg req) k =
         ((lookupAssoc req.query k).orElse (fun _ => lookupAssoc req.body k))) ∧
    lookupAssoc (extractParams ⟨false, []⟩
        ⟨[("x", .num 1)], [("x", .num 2)], none, []⟩) "x" = some (.num 2) := by
  constructor
  · intro cfg req k hq h1 h2 h3 h4
    unfold extractParams
    rw [lookupAssoc_attachHeaderParams_ne _ _ _ _ h4,
      lookupAssoc_attachRequestId_ne _ _ _ _ h3,
      lookupAssoc_attachAuthToken_ne _ _ _ h2,
      lookupAssoc_attachRawBody_ne _ _ _ h1]
    exact lookupAssoc_merge req.body req.query k hq
  · rfl

/-- Claim C6 witness: the merge characterization instantiated at body
`{"x":1}` and query `{"x":2}`. -/
theorem C6_witness :
    lookupAssoc (extractParams ⟨false, []⟩
        ⟨[("x", .num 1)], [("x", .num 2)], none, []⟩) "x" =
      ((lookupAssoc [("x", JSValue.num 2)] "x").orElse
        (fun _ => lookupAssoc [("x", JSValue.num 1)] "x")) :=
  C6_param_precedence.1 ⟨false, []⟩ ⟨[("x", .num 1)], [("x", .num 2)], none, []⟩ "x"
    (by simp) (by decide) (by decide) (by decide) (by simp)

/-- Claim C7 counterexample: an `Authorization` header with the `BEARER`
scheme casing attaches no `_auth_token` -- the source only recognizes the
exact prefixes `Bearer ` and `bearer `, so the scheme match is not
case-insensitive. -/
theorem C7_counterexample :
    lookupAssoc (extractParams c7Cfg c7Req) "_auth_token" = none := by rfl

/-- Claim C7 (amended): the `Authorization` scheme match is exact on
`Bearer `/`bearer ` (only the initial letter's case may vary, not arbitrary
casings such as `BEARER`); for a header of that shape the token -- the second
whitespace-separated part -- is attached under `_auth_token`. -/
theorem C7_bearer_token (cfg : ServerConfig) (req : Req) (t : String)
    (hhp : "_auth_token" ∉ cfg.headerParams)
    (ha : lookupAssoc req.headers "Authorization" = some ("Bearer " ++ t) ∨
          lookupAssoc req.headers "Authorization" = some ("bearer " ++ t))
    (ht : ∀ c ∈ t.data, c.isWhitespace = false) :
    lookupAssoc (extractParams cfg req) "_auth_token" = some (.str t) := by
  unfold extractParams
  rw [lookupAssoc_attachHeaderParams_ne _ _ _ _ hhp,
    lookupAssoc_attachRequestId_ne _ _ _ _ (by decide)]
  exact lookupAssoc_attachAuthToken_bearer _ _ _ ha ht

/-- Claim C7 witness: the amended property at the concrete header
`Bearer tok`. -/
theorem C7_witness :
    lookupAssoc (extractParams ⟨false, []⟩ c7WReq) "_auth_token" =
      some (.str "tok") :=
  C7_bearer_token ⟨false, []⟩ c7WReq "tok" (by simp) (Or.inl rfl) (by decide)

/-- Claim C8: the handler-instance cache is identity-stable under sequential
dispatch -- after a dispatch that returned instance `inst` and state `st2`, a
second dispatch to the same key returns the identical instance with the state
unchanged (so the handler is constructed at most once per key), the instance
is cached under its key, and no cached instance is ever evicted. -/
theorem C8_instance_cache (E : String → Option SCtor) (st : SrvState) (p : String)
    (inst : SInstance) (st2 : SrvState)
    (h : getEndpoint E st p = .ok (inst, st2)) :
    getEndpoint E st2 p = .ok (inst, st2) ∧
    lookupAssoc st2.endpointInstances p = some inst ∧
    (∀ q i, lookupAssoc st.endpointInstances q = some i →
      lookupAssoc st2.endpointInstances q = some i) := by
  unfold getEndpoint at h ⊢
  cases hc : lookupAssoc st.endpointInstances p with
  | some i0 =>
    rw [hc] at h
    injection h with h'
    injection h' with h1 h2
    subst h1
    subst h2
    refine ⟨?_, hc, fun q i hq => hq⟩
    rw [hc]
  | none =>
    rw [hc] at h
    cases he : E p with
    | none => rw [he] at h; exact Except.noConfusion h
    | some c =>
      rw [he] at h
      injection h with h'
      injection h' with h1 h2
      subst h1
      subst h2
      refine ⟨?_, ?_, ?_⟩
      · dsimp only
        rw [lookupAssoc_setAssoc_self]
      · exact lookupAssoc_setAssoc_self _ _ _
      · intro q i hq
        by_cases hqp : q = p
        · rw [hqp, hc] at hq
          exact Option.noConfusion hq
        · dsimp only
          rw [lookupAssoc_setAssoc_ne _ _ _ _ hqp]
          exact hq

/-- Claim C8 witness: after the first dispatch to `e` (from the empty cache),
the second dispatch reuses the identical instance with the state unchanged,
the instance is cached, and cached entries persist. -/
theorem C8_witness :
    getEndpoint c8Endpoints ⟨[("e", ⟨c8Ctor, 0⟩)], 1⟩ "e" =
      .ok (⟨c8Ctor, 0⟩, ⟨[("e", ⟨c8Ctor, 0⟩)], 1⟩) ∧
    lookupAssoc (SrvState.mk [("e", ⟨c8Ctor, 0⟩)] 1).endpointInstances "e" =
      some ⟨c8Ctor, 0⟩ ∧
    (∀ q i,
      lookupAssoc (SrvState.mk ([] : List (String × SInstance)) 0).endpointInstances q =
        some i →
      lookupAssoc (SrvState.mk [("e", ⟨c8Ctor, 0⟩)] 1).endpointInstances q = some i) :=
  C8_instance_cache c8Endpoints ⟨[], 0⟩ "e" ⟨c8Ctor, 0⟩ ⟨[("e", ⟨c8Ctor, 0⟩)], 1⟩ rfl

/-- Claim C10: the success encoding is total exactly on non-null results --
every non-null resolution produces one (conforming) response, while
`respondWithSuccess` faults on `null` (the own-property probe precedes every
branch), and a dispatched request whose handler resolves `null` ends in the
`.catch` with the TypeError, whose error response carries no numeric status:
no conforming success or error envelope is produced. -/
theorem C10_null_result_fault :
    (∀ result : JSValue, result ≠ JSValue.null →
       ∃ resp, respondWithSuccess result = .ok resp ∧
         resp.conformingEnvelope = true) ∧
    respondWithSuccess JSValue.null = .error () ∧
    (∀ (E : String → Option SCtor) (st : SrvState) (p method : String)
       (params : JSValue) (meta : ReqMeta) (inst : SInstance) (st2 : SrvState)
       (m : JSValue → ReqMeta → Except JSValue JSValue) (r : JSValue),
       getEndpoint E st p = .ok (inst, st2) →
       lookupAssoc inst.ctor.methods method = some m →
       m params meta = .ok r → r ≠ JSValue.null →
       ∃ resp, processEndpoint E st p method params meta = .ok (resp, st2) ∧
         resp.conformingEnvelope = true) ∧
    (∀ (E : String → Option SCtor) (st : SrvState) (p method : String)
       (params : JSValue) (meta : ReqMeta) (inst : SInstance) (st2 : SrvState)
       (m : JSValue → ReqMeta → Except JSValue JSValue),
       getEndpoint E st p = .ok (inst, st2) →
       lookupAssoc inst.ctor.methods method = some m →
       m params meta = .ok JSValue.null →
       processEndpoint E st p method params meta =
         .ok (respondWithError typeErrorValue, st2) ∧
       (respondWithError typeErrorValue).conformingEnvelope = false) := by
  refine ⟨?_, rfl, ?_, ?_⟩
  · intro r hnn
    exact ⟨respondSuccessPure r, respondWithSuccess_of_ne_null r hnn,
      conforming_respondSuccessPure r⟩
  · intro E st p method params meta inst st2 m r hget hm hr hnn
    unfold processEndpoint
    simp only [hget, hm, hr, respondWithSuccess_of_ne_null r hnn]
    exact ⟨respondSuccessPure r, rfl, conforming_respondSuccessPure r⟩
  · intro E st p method params meta inst st2 m hget hm hr
    unfold processEndpoint
    simp only [hget, hm, hr,
      (rfl : respondWithSuccess JSValue.null = .error ())]
    exact ⟨rfl, rfl⟩

/-- Claim C10 witness: a handler resolving `null` under `get` drives the
dispatch into the TypeError catch, whose response is not a conforming
envelope. -/
theorem C10_witness :
    processEndpoint c10Endpoints ⟨[], 0⟩ "e" "get" JSValue.null ⟨"/api/e", "/api"⟩ =
      .ok (respondWithError typeErrorValue, ⟨[("e", ⟨c10Ctor, 0⟩)], 1⟩) ∧
    (respondWithError typeErrorValue).conformingEnvelope = false :=
  C10_null_result_fault.2.2.2 c10Endpoints ⟨[], 0⟩ "e" "get" JSValue.null
    ⟨"/api/e", "/api"⟩ ⟨c10Ctor, 0⟩ ⟨[("e", ⟨c10Ctor, 0⟩)], 1⟩
    (fun _ _ => Except.ok JSValue.null) rfl rfl rfl

/-- Claim C3 counterexample: `call()` on an unregistered endpoint key does not
settle with a `{status:404}`-class failure -- it throws synchronously
(`typeof undefined` is not `'string'`, so the local path runs
`new undefined(...)`), producing no promise at all. -/
theorem C3_counterexample :
    (Client.call c3Endpoints c3Net [] c3Opts).1 = CallResult.syncFault ∧
    CallResult.syncFault ≠
      CallResult.settled (.error (.obj [("status", .num 404),
        ("message", .str "api endpoint not found")])) := by
  exact ⟨rfl, fun h => CallResult.noConfusion h⟩

/-- Claim C3 (amended): for every call request whose endpointKey is absent
from the registry (and hence has no cached instance), `Client.call` neither
resolves nor rejects: it faults synchronously with a TypeError from
constructing an undefined handler type, so no structured failure outcome is
produced. -/
theorem C3_unregistered_sync_fault (endpoints : String → Option Descriptor)
    (net : String → Transport) (cache : List (String × LocalHandler))
    (opts : CallOptions)
    (h1 : endpoints opts.endpoint = none)
    (h2 : lookupAssoc cache opts.endpoint = none) :
    (Client.call endpoints net cache opts).1 = CallResult.syncFault := by
  unfold Client.call
  simp only [h1]
  unfold callLocal
  simp only [h2]

/-- Claim C3 witness: the amended behaviour at the concrete empty registry. -/
theorem C3_witness :
    (Client.call c3Endpoints c3Net [] c3Opts).1 = CallResult.syncFault :=
  C3_unregistered_sync_fault c3Endpoints c3Net [] c3Opts rfl rfl

/-- Claim C4 counterexample: a transport-successful remote call whose body is
`{data: 0}` -- the `data` key present with a falsy value -- resolves with the
whole body, not with the value under `data`, because the source tests
`data.data ? data.data : data` by truthiness, not key presence. -/
theorem C4_counterexample :
    (callRemote c4Net "u" c4Opts).1 =
      CallResult.settled (.ok (.obj [("data", .num 0)])) ∧
    (callRemote c4Net "u" c4Opts).1 ≠
      CallResult.settled (.ok (.num 0)) := by
  refine ⟨rfl, fun h => ?_⟩
  exact JSValue.noConfusion (Except.ok.inj (CallResult.settled.inj h))

/-- Claim C4 (amended): on transport success with a supported verb, the raw
result is the value under the body's `data` key whenever that value is
truthy; otherwise (non-null body, `data` absent or falsy) the raw result is
the whole body; the final success value is the (default identity) parser
applied to the raw result. -/
theorem C4_remote_unwrap (net : String → Transport) (url : String)
    (opts : CallOptions) (body : JSValue)
    (hsup : supportedVerbs.contains (orDefaultStr opts.method "get") = true)
    (hnet : net url = .success body) :
    (∀ v, body.lookup "data" = some v → jsTruthy v = true →
      (callRemote net url opts).1 =
        .settled (.ok ((opts.parser.getD (fun d => d)) v))) ∧
    (body ≠ .null → jsTruthyOpt (body.lookup "data") = false →
      (callRemote net url opts).1 =
        .settled (.ok ((opts.parser.getD (fun d => d)) body))) := by
  have hsup' : orDefaultStr opts.method "get" ∈ supportedVerbs := by simpa using hsup
  constructor
  · intro v hv htr
    cases body with
    | null => simp [JSValue.lookup] at hv
    | bool b => simp [JSValue.lookup] at hv
    | num n => simp [JSValue.lookup] at hv
    | str s => simp [JSValue.lookup] at hv
    | arr l => simp [JSValue.lookup] at hv
    | obj fs =>
      simp only [JSValue.lookup] at hv
      unfold callRemote loadClientOptions remoteReturn
      simp [hsup', hnet, JSValue.lookup, hv, jsTruthyOpt, htr]
  · intro hnn hf
    cases body with
    | null => exact absurd rfl hnn
    | bool b =>
      unfold callRemote loadClientOptions remoteReturn
      simp [hsup', hnet, JSValue.lookup, jsTruthyOpt]
    | num n =>
      simp only [JSValue.lookup, jsTruthyOpt] at hf
      unfold callRemote loadClientOptions remoteReturn
      simp [hsup', hnet, JSValue.lookup, jsTruthyOpt]
    | str s =>
      simp only [JSValue.lookup, jsTruthyOpt] at hf
      unfold callRemote loadClientOptions remoteReturn
      simp [hsup', hnet, JSValue.lookup, jsTruthyOpt]
    | arr l =>
      unfold callRemote loadClientOptions remoteReturn
      simp [hsup', hnet, JSValue.lookup, jsTruthyOpt]
    | obj fs =>
      simp only [JSValue.lookup] at hf
      unfold callRemote loadClientOptions remoteReturn
      simp [hsup', hnet, JSValue.lookup, hf]

/-- Claim C4 witness: the amended unwrap at the concrete body `{data: 7}`. -/
theorem C4_witness :
    (callRemote c4WNet "u" c4Opts).1 = CallResult.settled (.ok (.num 7)) :=
  (C4_remote_unwrap c4WNet "u" c4Opts (.obj [("data", .num 7)]) rfl rfl).1
    (.num 7) rfl rfl

/-- Claim C5 counterexample: with the same default options, a remote endpoint
whose server body is `{data: 0}` resolves with the whole envelope, while the
same value from a local handler resolves with `0` -- the two dispatch paths
are distinguishable for falsy values. -/
theorem C5_counterexample :
    (Client.call c5RemoteReg c5Net [] c5Opts).1 =
      CallResult.settled (.ok (.obj [("data", .num 0)])) ∧
    (Client.call c5LocalReg c5Net [] c5Opts).1 =
      CallResult.settled (.ok (.num 0)) ∧
    (Client.call c5RemoteReg c5Net [] c5Opts).1 ≠
      (Client.call c5LocalReg c5Net [] c5Opts).1 := by
  refine ⟨rfl, rfl, fun h => ?_⟩
  exact JSValue.noConfusion (Except.ok.inj (CallResult.settled.inj h))

/-- Claim C5 (amended): for every truthy value `v`, a `call()` to a key
registered as a remote URL whose server responds `{data: v}` and a `call()`
to the same key registered as a local handler whose `get` resolves `v` settle
with the same success outcome `v` (default verb and resultTransform). -/
theorem C5_locality_transparency (E1 E2 : String → Option Descriptor)
    (net : String → Transport) (cacheR cacheL : List (String × LocalHandler))
    (opts : CallOptions) (url : String) (h : LocalHandler)
    (m : JSValue → Except JSValue JSValue) (v : JSValue)
    (htr : jsTruthy v = true)
    (h1 : E1 opts.endpoint = some (.remote url))
    (h2 : net url = .success (.obj [("data", v)]))
    (h3 : E2 opts.endpoint = some (.localH h))
    (h4 : lookupAssoc cacheL opts.endpoint = none)
    (h5 : lookupAssoc h.methods "get" = some m)
    (h6 : m opts.params = .ok v)
    (h7 : opts.method = none) (h8 : opts.parser = none) :
    (Client.call E1 net cacheR opts).1 = .settled (.ok v) ∧
    (Client.call E2 net cacheL opts).1 = .settled (.ok v) := by
  constructor
  · unfold Client.call
    simp only [h1]
    have hc : "get" ∈ supportedVerbs := by decide
    unfold callRemote loadClientOptions remoteReturn
    simp [h7, h8, orDefaultStr, hc, h2, JSValue.lookup, lookupAssoc, jsTruthyOpt, htr]
  · unfold Client.call
    simp only [h3]
    unfold callLocal runLocal
    simp [h4, h7, h8, orDefaultStr, h5, h6]

/-- Claim C5 witness: both dispatch paths at the truthy value `3`. -/
theorem C5_witness :
    (Client.call c5RemoteReg c5WNet [] c5Opts).1 =
      CallResult.settled (.ok (.num 3)) ∧
    (Client.call c5WLocalReg c5WNet [] c5Opts).1 =
      CallResult.settled (.ok (.num 3)) :=
  C5_locality_transparency c5RemoteReg c5WLocalReg c5WNet [] [] c5Opts "u"
    c5WHandler (fun _ => Except.ok (JSValue.num 3)) (.num 3)
    rfl rfl rfl rfl rfl rfl rfl rfl rfl

/-- Claim C9 counterexample: `call()` mutates the caller-supplied options
object -- with a truthy `Content-Type` entry and a remote endpoint, the entry
is deleted from the caller's object by `loadClientOptions`. -/
theorem C9_counterexample :
    (Client.call c9Endpoints c9Net [] c9Opts).2.2.contentType = none ∧
    c9Opts.contentType = some (.str "text/plain") ∧
    (Client.call c9Endpoints c9Net [] c9Opts).2.2.contentType ≠
      c9Opts.contentType := by
  refine ⟨rfl, rfl, fun h => ?_⟩
  exact Option.noConfusion h

/-- Claim C9 (amended): `call()` is effect-free apart from the network call,
the cache mutation, and a mutation of the caller's options object: on the
remote path a truthy `Content-Type` key is deleted and a parser is always
present afterwards (the cache is untouched); on the local path default
`method` and `parser` are written; `endpoint`, `params` -- and `method` on
the remote path -- are never modified. -/
theorem C9_call_options_mutated (endpoints : String → Option Descriptor)
    (net : String → Transport) (cache : List (String × LocalHandler))
    (opts : CallOptions) :
    (∀ url, endpoints opts.endpoint = some (.remote url) →
      ((Client.call endpoints net cache opts).2.2.endpoint = opts.endpoint ∧
       (Client.call endpoints net cache opts).2.2.params = opts.params ∧
       (Client.call endpoints net cache opts).2.2.method = opts.method ∧
       (Client.call endpoints net cache opts).2.2.contentType =
         (if jsTruthyOpt opts.contentType then none else opts.contentType) ∧
       ((Client.call endpoints net cache opts).2.2.parser).isSome = true ∧
       (Client.call endpoints net cache opts).2.1 = cache)) ∧
    (∀ h, endpoints opts.endpoint = some (.localH h) →
      ((Client.call endpoints net cache opts).2.2.endpoint = opts.endpoint ∧
       (Client.call endpoints net cache opts).2.2.params = opts.params ∧
       (Client.call endpoints net cache opts).2.2.method =
         some (orDefaultStr opts.method "get") ∧
       (Client.call endpoints net cache opts).2.2.contentType = opts.contentType ∧
       ((Client.call endpoints net cache opts).2.2.parser).isSome = true)) := by
  constructor
  · intro url h1
    unfold Client.call callRemote loadClientOptions
    simp [h1]
  · intro h h1
    unfold Client.call callLocal
    simp [h1]

/-- Claim C9 witness: the remote-path mutation at a concrete options object
carrying `Content-Type: text/plain`. -/
theorem C9_witness :
    (Client.call c9Endpoints c9Net [] c9Opts).2.2.endpoint = c9Opts.endpoint ∧
    (Client.call c9Endpoints c9Net [] c9Opts).2.2.params = c9Opts.params ∧
    (Client.call c9Endpoints c9Net [] c9Opts).2.2.method = c9Opts.method ∧
    (Client.call c9Endpoints c9Net [] c9Opts).2.2.contentType =
      (if jsTruthyOpt c9Opts.contentType then none else c9Opts.contentType) ∧
    ((Client.call c9Endpoints c9Net [] c9Opts).2.2.parser).isSome = true ∧
    (Client.call c9Endpoints c9Net [] c9Opts).2.1 = [] :=
  (C9_call_options_mutated c9Endpoints c9Net [] c9Opts).1 "u" rfl
